import Mathlib

/-!
# Verification of the zapfmt logging wrapper

Shallow embedding of the `zapfmt` package (a wrapper around the zap
structured-logging engine) and proofs about its behaviour.

The embedding follows the Go sources: `context.go` (context propagation free
functions, `Loggerer` variant), `interface.go`, and the library file declaring
`Logger`, `NewProductionLogger`, `DefaultLogger` and the encoder configuration.
Two pieces of the repository are not present under the sources we were given
and are modelled from the specification where noted: the `encoders` package
(key-value encoder) and `levels.go` (`wrapCoreWithLevel`, the dynamic-level
core wrapper).  Behaviour of the external zap engine (`zap.Logger.check`,
`CheckedEntry`, `With`/`Named` cloning, the no-op core) is embedded as the
environment the package runs in, matching the semantics the repository's own
doc comments and tests rely on (e.g. "The Logger then calls os.Exit(1), even
if logging at FatalLevel is disabled").

Mutable state (the atomic level holders, the output sink, and the
process-level panic/exit effects) is modelled by explicit state passing
through a `LogState` value.
-/

/-- Severity levels, mirroring `zapcore.Level` (Debug = -1 … Fatal = 5). -/
inductive Level where
  | DebugLevel
  | InfoLevel
  | WarnLevel
  | ErrorLevel
  | DPanicLevel
  | PanicLevel
  | FatalLevel
deriving DecidableEq, Repr

/-- Numeric value of a severity level, as in `zapcore.Level`. -/
def Level.toInt : Level → Int
  | .DebugLevel => -1
  | .InfoLevel => 0
  | .WarnLevel => 1
  | .ErrorLevel => 2
  | .DPanicLevel => 3
  | .PanicLevel => 4
  | .FatalLevel => 5

/-- `zapcore.LevelEnabler` semantics: a threshold `t` enables level `l`
when `t <= l` numerically (`Level.Enabled`). -/
def levelLE (t l : Level) : Bool := t.toInt ≤ l.toInt

/-- Strict comparison of severity levels. -/
def levelLT (a b : Level) : Bool := a.toInt < b.toInt

/-- `zapcore.LowercaseLevelEncoder`: the lowercase name of a level. -/
def Level.lowercaseName : Level → String
  | .DebugLevel => "debug"
  | .InfoLevel => "info"
  | .WarnLevel => "warn"
  | .ErrorLevel => "error"
  | .DPanicLevel => "dpanic"
  | .PanicLevel => "panic"
  | .FatalLevel => "fatal"

/-- Typed values of structured fields (`zap.Field`); the subset of field
constructors exercised by this repository's tests.  Durations and
timestamps are counted in nanoseconds, as in Go's `time` package. -/
inductive FieldValue where
  | str (s : String)
  | int (n : Int)
  | dur (ns : Int)
  | time (ns : Int)
  | err (msg : String)
deriving DecidableEq, Repr

/-- A structured field: a key paired with a typed value. -/
structure LogField where
  key : String
  value : FieldValue
deriving DecidableEq, Repr

/-- The low `w` decimal digits of `n`, most significant first, zero-padded
to exactly `w` characters. -/
def padList : Nat → Nat → List Char
  | 0, _ => []
  | w + 1, n => padList w (n / 10) ++ [Nat.digitChar (n % 10)]

/-- `n` rendered in decimal, zero-padded to fixed width `w`. -/
def padNat (w n : Nat) : String := String.mk (padList w n)

/-- Modelled from the spec: the key-value encoder's timestamp rendering
(`rfc3399NanoTimeEncoder` with Go layout `2006-01-02T15:04:05.000000Z07:00`):
UTC, microsecond precision, fractional seconds zero-padded to exactly six
digits.  The civil date is computed from days since the Unix epoch by the
standard era/cycle algorithm.  Input is nanoseconds since the Unix epoch. -/
def formatRFC3339Micro (ts : Int) : String :=
  let secs : Int := Int.fdiv ts 1000000000
  let nanoOfSec : Nat := (Int.fmod ts 1000000000).toNat
  let micros : Nat := nanoOfSec / 1000
  let days : Int := Int.fdiv secs 86400
  let secOfDay : Nat := (Int.fmod secs 86400).toNat
  let hh : Nat := secOfDay / 3600
  let mi : Nat := secOfDay % 3600 / 60
  let ss : Nat := secOfDay % 60
  let z : Int := days + 719468
  let era : Int := Int.fdiv z 146097
  let doe : Nat := (Int.fmod z 146097).toNat
  let yoe : Nat := (doe - doe / 1460 + doe / 36524 - doe / 146096) / 365
  let doy : Nat := doe - (365 * yoe + yoe / 4 - yoe / 100)
  let mp : Nat := (5 * doy + 2) / 153
  let dd : Nat := doy - (153 * mp + 2) / 5 + 1
  let mm : Nat := if mp < 10 then mp + 3 else mp - 9
  let yr : Int := era * 400 + (yoe : Int) + (if mm ≤ 2 then 1 else 0)
  padNat 4 yr.toNat ++ "-" ++ padNat 2 mm ++ "-" ++ padNat 2 dd ++ "T" ++
    padNat 2 hh ++ ":" ++ padNat 2 mi ++ ":" ++ padNat 2 ss ++ "." ++
    padNat 6 micros ++ "Z"

/-- Drop trailing `'0'` characters from a digit string. -/
def dropTrailingZeros (s : String) : String :=
  String.mk ((s.data.reverse.dropWhile (fun c => c = '0')).reverse)

/-- Modelled from the spec: the key-value encoder's duration rendering
(`zapcore.SecondsDurationEncoder`): a duration in nanoseconds rendered as
seconds with its fractional component, trailing zeros trimmed
(e.g. 374ms renders as `0.374`). -/
def renderDuration (ns : Int) : String :=
  let render : Nat → String := fun n =>
    let whole := n / 1000000000
    let frac := n % 1000000000
    if frac = 0 then toString whole
    else toString whole ++ "." ++ dropTrailingZeros (padNat 9 frac)
  if ns < 0 then "-" ++ render (-ns).toNat else render ns.toNat

/-- Modelled from the spec: how the key-value encoder renders one field
value: strings and errors verbatim, integers in decimal, durations as
fractional seconds, timestamps in the fixed-width UTC format. -/
def renderFieldValue : FieldValue → String
  | .str s => s
  | .int n => toString n
  | .dur ns => renderDuration ns
  | .time ns => formatRFC3339Micro ns
  | .err m => m

/-- Modelled from the spec: one bracketed `[key:value]` segment. -/
def renderField (f : LogField) : String :=
  "[" ++ f.key ++ ":" ++ renderFieldValue f.value ++ "]"

/-- The optional `[stacktrace:...]` trailer of an encoded line. -/
def renderStack : Option String → String
  | none => ""
  | some st => "[stacktrace:" ++ st ++ "]"

/-- The optional `[logger:...]` segment: omitted entirely (not rendered as
an empty bracket) when the logger name is empty. -/
def loggerSegment (nm : String) : String :=
  if nm = "" then "" else "[logger:" ++ nm ++ "]"

/-- Modelled from the spec: the key-value encoder (`encoders.NewKeyValueEncoder`
with the configuration built in `newZapCoreAtLevel`), producing one line
`[ts:..][level:..][logger:..]?[caller:..][msg:..][k:v]...[stacktrace:..]?`. -/
def encodeLine (ts : Int) (lvl : Level) (nm caller msg : String)
    (fields : List LogField) (stack : Option String) : String :=
  "[ts:" ++ formatRFC3339Micro ts ++ "][level:" ++ lvl.lowercaseName ++ "]" ++
    loggerSegment nm ++ "[caller:" ++ caller ++ "][msg:" ++ msg ++ "]" ++
    String.join (fields.map renderField) ++ renderStack stack

/-- Name segments joined with the `"."` separator, in order; the empty list
yields the empty name.  Used to state the naming property. -/
def dotJoin : List String → String
  | [] => ""
  | t :: rest => t ++ String.join (rest.map (fun u => "." ++ u))

/-- The mutable environment: atomic level holders (`zap.AtomicLevel` values,
identified by allocation index), the shared standard-error sink, and the
process-level effects of `Fatal`/`Panic`. -/
structure LogState where
  nextHolder : Nat
  holderLevel : Nat → Level
  output : List String
  panicked : Bool
  exited : Bool

/-- `zap.AtomicLevel.SetLevel`: store a new level in holder `h`. -/
def LogState.setLevel (s : LogState) (h : Nat) (v : Level) : LogState :=
  { s with holderLevel := fun i => if i = h then v else s.holderLevel i }

/-- `zap.NewAtomicLevelAt`: allocate a fresh holder initialized to `v`,
returning its identity and the new state. -/
def LogState.alloc (s : LogState) (v : Level) : Nat × LogState :=
  (s.nextHolder,
   { s with
     nextHolder := s.nextHolder + 1
     holderLevel := fun i => if i = s.nextHolder then v else s.holderLevel i })

/-- A `zapcore.Core` as this package builds them: the zap no-op core
(`zap.NewNop`), an I/O core with a fixed enabler writing to the shared sink
(`zapcore.NewCore` in `newZapCoreAtLevel`), or the dynamic-level wrapper that
reads its threshold from a Mutable Level Holder at decision time
(modelled from the spec, §4.2 Level-Aware Core Wrapper: `levels.go` is not
among the given sources). -/
inductive Core where
  | nop
  | ioCore (enab : Level)
  | dynamic (holder : Nat) (inner : Core)
deriving DecidableEq, Repr

/-- Emit decision: the no-op core accepts nothing; an I/O core compares with
its fixed enabler; the dynamic wrapper consults its holder's current level
(and only that, overriding the inner core's decision). -/
def Core.enabled (c : Core) (s : LogState) (lvl : Level) : Bool :=
  match c with
  | .nop => false
  | .ioCore t => levelLE t lvl
  | .dynamic h _ => levelLE (s.holderLevel h) lvl

/-- Writing an already-accepted record: the no-op core discards it, an I/O
core appends the encoded line to the sink, the dynamic wrapper delegates to
the core it wraps. -/
def Core.write (c : Core) (line : String) (s : LogState) : LogState :=
  match c with
  | .nop => s
  | .ioCore _ => { s with output := s.output ++ [line] }
  | .dynamic _ inner => inner.write line s

/-- Whether a write through this core reaches the shared sink. -/
def Core.writesThrough : Core → Bool
  | .nop => false
  | .ioCore _ => true
  | .dynamic _ inner => inner.writesThrough

/-- All holder references inside the core are already allocated in a state
with `n` holders. -/
def Core.boundedBy : Core → Nat → Bool
  | .nop, _ => true
  | .ioCore _, _ => true
  | .dynamic h inner, n => decide (h < n) && inner.boundedBy n

/-- The state of a `zap.Logger` value: accumulated name, accumulated
structured fields, caller-skip depth, development flag, and its core. -/
structure ZapLogger where
  name : String
  fields : List LogField
  callerSkip : Nat
  development : Bool
  core : Core
deriving DecidableEq, Repr

/-- `zap.Logger.With`: clone with the given fields appended to the
accumulated sequence (zap bakes them into the cloned core, preserving
order: parent's fields first, then the new ones). -/
def ZapLogger.withFields (l : ZapLogger) (fs : List LogField) : ZapLogger :=
  { l with fields := l.fields ++ fs }

/-- `zap.Logger.Named`: clone with one more dot-separated name segment; an
empty segment leaves the logger unchanged, an empty current name takes the
segment as the whole name. -/
def ZapLogger.named (l : ZapLogger) (seg : String) : ZapLogger :=
  if seg = "" then l
  else { l with name := if l.name = "" then seg else l.name ++ "." ++ seg }

/-- `zap.AddCallerSkip n` applied through `zap.Logger.WithOptions`: a clone
with the caller-skip depth increased; the receiver is left untouched. -/
def ZapLogger.addCallerSkip (l : ZapLogger) (n : Nat) : ZapLogger :=
  { l with callerSkip := l.callerSkip + n }

/-- Modelled from the spec (§4.2): `wrapCoreWithLevel` (`levels.go`, not
among the given sources) applied through `WithOptions`: wrap the logger's
core so that the emit decision is read from holder `h` at decision time. -/
def ZapLogger.wrapCoreWithLevel (l : ZapLogger) (h : Nat) : ZapLogger :=
  { l with core := .dynamic h l.core }

/-- The fixed metadata of one candidate log record (`zapcore.Entry`). -/
structure Entry where
  level : Level
  ts : Int
  name : String
  caller : String
  msg : String
  stack : Option String
deriving DecidableEq, Repr

/-- What `CheckedEntry.Write` does after writing (`zapcore.CheckWriteAction`). -/
inductive WriteHook where
  | noop
  | writeThenPanic
  | writeThenFatal
deriving DecidableEq, Repr

/-- A `zapcore.CheckedEntry`: the entry, the accumulated logger fields and
core it will write with, whether any core accepted it, and the after-write
hook. -/
structure CheckedEntry where
  entry : Entry
  fields : List LogField
  core : Core
  willWrite : Bool
  hook : WriteHook
deriving DecidableEq, Repr

/-- `CheckedEntry.Should`: force a non-nil checked entry carrying the given
after-write hook, reusing the accepted entry when there is one. -/
def ceShould (base : Option CheckedEntry) (fallback : CheckedEntry)
    (h : WriteHook) : CheckedEntry :=
  { base.getD fallback with hook := h }

/-- `zap.Logger.check` (the zap engine): consult the core; at Panic and
Fatal levels (and DPanic in development mode) return a usable entry even
when the threshold rejects it, so that the panic/exit side effect is
unconditional — exactly the behaviour this repository's doc comments state
("The Logger then calls os.Exit(1), even if logging at FatalLevel is
disabled").  The runtime-captured caller location and stack trace are taken
as ambient inputs; per `zap.AddStacktrace(zap.ErrorLevel)` the stack is
attached at Error level and above. -/
def ZapLogger.check (l : ZapLogger) (s : LogState) (lvl : Level) (msg : String)
    (ts : Int) (caller stackTxt : String) : Option CheckedEntry :=
  let ent : Entry :=
    { level := lvl, ts := ts, name := l.name, caller := caller, msg := msg
      stack := if levelLE .ErrorLevel lvl then some stackTxt else none }
  let accepted := l.core.enabled s lvl
  let base : Option CheckedEntry :=
    if accepted then some ⟨ent, l.fields, l.core, true, .noop⟩ else none
  let fallback : CheckedEntry := ⟨ent, l.fields, l.core, false, .noop⟩
  match lvl with
  | .PanicLevel => some (ceShould base fallback .writeThenPanic)
  | .FatalLevel => some (ceShould base fallback .writeThenFatal)
  | .DPanicLevel =>
      if l.development then some (ceShould base fallback .writeThenPanic) else base
  | _ => base

/-- `zapcore.CheckedEntry.Write`: encode and write the record through the
core when it was accepted, then run the after-write hook (panic for
`WriteThenPanic`, process exit for `WriteThenFatal`). -/
def CheckedEntry.writeCE (ce : CheckedEntry) (callFields : List LogField)
    (s : LogState) : LogState :=
  let s1 :=
    if ce.willWrite then
      ce.core.write
        (encodeLine ce.entry.ts ce.entry.level ce.entry.name ce.entry.caller
          ce.entry.msg (ce.fields ++ callFields) ce.entry.stack) s
    else s
  match ce.hook with
  | .noop => s1
  | .writeThenPanic => { s1 with panicked := true }
  | .writeThenFatal => { s1 with exited := true }

/-- The shared body of zap's leveled emit methods (`Debug` … `Fatal`):
`if ce := log.check(lvl, msg); ce != nil { ce.Write(fields...) }`. -/
def ZapLogger.logAt (l : ZapLogger) (s : LogState) (lvl : Level) (msg : String)
    (ts : Int) (caller stackTxt : String) (fs : List LogField) : LogState :=
  match l.check s lvl msg ts caller stackTxt with
  | some ce => ce.writeCE fs s
  | none => s

/-- The package's concrete Logger Facade: `type Logger struct { *zap.Logger }`. -/
structure Logger where
  toZap : ZapLogger
deriving DecidableEq, Repr

/-- `Logger.WithLevel` (library file): allocate a fresh atomic holder at
`level` via `zap.NewAtomicLevelAt` and wrap the child's core with it
(`l.Logger.WithOptions(wrapCoreWithLevel(&lvl))`); the child therefore owns
a private frozen holder while the parent is untouched. -/
def Logger.WithLevel (l : Logger) (level : Level) (s : LogState) :
    Logger × LogState :=
  let (h, s1) := s.alloc level
  (⟨l.toZap.wrapCoreWithLevel h⟩, s1)

/-- `Logger.With` (library file): child facade with the given fields
appended to the parent's accumulated sequence. -/
def Logger.With (l : Logger) (fs : List LogField) : Logger :=
  ⟨l.toZap.withFields fs⟩

/-- `Logger.Named` (library file): child facade with one more name segment. -/
def Logger.Named (l : Logger) (seg : String) : Logger :=
  ⟨l.toZap.named seg⟩

/-- `NewProductionLogger` (library file): a logger over the key-value I/O
core with a Debug-level fixed enabler, wrapped by the dynamic-level core
reading the caller-supplied holder `h`, with `zap.AddCaller`,
`zap.AddCallerSkip(1)` and `zap.AddStacktrace(zap.ErrorLevel)`. -/
def NewProductionLogger (h : Nat) : Logger :=
  ⟨{ name := ""
     fields := []
     callerSkip := 1
     development := false
     core := .dynamic h (.ioCore .DebugLevel) }⟩

/-- `DefaultLogger` (library file): `&Logger{Logger: zap.NewNop()}` — the
process-wide fallback facade, discarding all logs by default. -/
def DefaultLogger : Logger :=
  ⟨{ name := ""
     fields := []
     callerSkip := 0
     development := false
     core := .nop }⟩

/-- A Go `context.Context` as this package uses it: the background context
or a value layer added by `context.WithValue`; lookup walks to the nearest
layer with a matching key.  The only values ever stored under the package's
private key are Logger Facades. -/
inductive GoContext where
  | background
  | withValue (parent : GoContext) (key : String) (val : Logger)
deriving DecidableEq, Repr

/-- `context.Context.Value`: nearest-layer lookup by key. -/
def GoContext.value : GoContext → String → Option Logger
  | .background, _ => none
  | .withValue p k v, key => if k = key then some v else p.value key

/-- The package's private context key (`contextKey("zap-Logger")`). -/
def contextKeyLogger : String := "zap-Logger"

namespace Zapfmt

/-- `Context` (context.go): when the given facade is the concrete `*Logger`
type, the source computes `l.Logger.WithOptions(zap.AddCallerSkip(1))` —
whose result is bound here exactly as the source discards it (zap's
`WithOptions` returns a clone and never mutates its receiver) — and then
stores the facade in a child context under the private key. -/
def Context (ctx : GoContext) (log : Logger) : GoContext :=
  let _ := log.toZap.addCallerSkip 1
  ctx.withValue contextKeyLogger log

/-- `getLogger` (context.go): the facade stored in the context, with the
process-wide `DefaultLogger` as the total fallback. -/
def getLogger (ctx : GoContext) : Logger :=
  (ctx.value contextKeyLogger).getD DefaultLogger

/-- Free function `Named` (context.go): derive from the active facade and
store the child in a new context value. -/
def Named (ctx : GoContext) (seg : String) : GoContext :=
  ctx.withValue contextKeyLogger ((getLogger ctx).Named seg)

/-- Free function `With` (context.go). -/
def With (ctx : GoContext) (fs : List LogField) : GoContext :=
  ctx.withValue contextKeyLogger ((getLogger ctx).With fs)

/-- Free function `WithLevel` (context.go). -/
def WithLevel (ctx : GoContext) (lvl : Level) (s : LogState) :
    GoContext × LogState :=
  let (child, s1) := (getLogger ctx).WithLevel lvl s
  (ctx.withValue contextKeyLogger child, s1)

/-- Free function `Check` (context.go): `getLogger(ctx).Check(lvl, msg)`. -/
def Check (ctx : GoContext) (s : LogState) (lvl : Level) (msg : String)
    (ts : Int) (caller stackTxt : String) : Option CheckedEntry :=
  (getLogger ctx).toZap.check s lvl msg ts caller stackTxt

/-- The shared shape of the seven leveled free functions (context.go):
`getLogger(ctx).<Level>(msg, fields...)`. -/
def logCtx (ctx : GoContext) (s : LogState) (lvl : Level) (msg : String)
    (ts : Int) (caller stackTxt : String) (fs : List LogField) : LogState :=
  (getLogger ctx).toZap.logAt s lvl msg ts caller stackTxt fs

/-- Free function `Debug` (context.go). -/
def Debug (ctx : GoContext) (s : LogState) (msg : String) (ts : Int)
    (caller stackTxt : String) (fs : List LogField) : LogState :=
  logCtx ctx s .DebugLevel msg ts caller stackTxt fs

/-- Free function `Info` (context.go). -/
def Info (ctx : GoContext) (s : LogState) (msg : String) (ts : Int)
    (caller stackTxt : String) (fs : List LogField) : LogState :=
  logCtx ctx s .InfoLevel msg ts caller stackTxt fs

/-- Free function `Fatal` (context.go): "The Logger then calls os.Exit(1),
even if logging at FatalLevel is disabled." -/
def Fatal (ctx : GoContext) (s : LogState) (msg : String) (ts : Int)
    (caller stackTxt : String) (fs : List LogField) : LogState :=
  logCtx ctx s .FatalLevel msg ts caller stackTxt fs

end Zapfmt

/-! ## Helper lemmas -/

theorem padList_length (w n : Nat) : (padList w n).length = w := by
  induction w generalizing n with
  | zero => rfl
  | succ w ih => simp [padList, ih]

theorem padNat_length (w n : Nat) : (padNat w n).length = w := by
  simpa [padNat, String.length] using padList_length w n

theorem named_core (z : ZapLogger) (seg : String) :
    (z.named seg).core = z.core := by
  unfold ZapLogger.named
  split <;> rfl

theorem named_fields (z : ZapLogger) (seg : String) :
    (z.named seg).fields = z.fields := by
  unfold ZapLogger.named
  split <;> rfl

theorem write_of_writesThrough (c : Core) (line : String) (s : LogState)
    (h : c.writesThrough = true) :
    c.write line s = { s with output := s.output ++ [line] } := by
  induction c with
  | nop => simp [Core.writesThrough] at h
  | ioCore t => rfl
  | dynamic hd inner ih =>
      simp only [Core.writesThrough] at h
      simpa [Core.write] using ih h

theorem write_of_not_writesThrough (c : Core) (line : String) (s : LogState)
    (h : c.writesThrough = false) :
    c.write line s = s := by
  induction c with
  | nop => rfl
  | ioCore t => simp [Core.writesThrough] at h
  | dynamic hd inner ih =>
      simp only [Core.writesThrough] at h
      simpa [Core.write] using ih h

theorem write_output_frame (c : Core) (line : String) (s : LogState) :
    (c.write line s).panicked = s.panicked ∧ (c.write line s).exited = s.exited ∧
      (c.write line s).nextHolder = s.nextHolder ∧
      (c.write line s).holderLevel = s.holderLevel := by
  induction c with
  | nop => exact ⟨rfl, rfl, rfl, rfl⟩
  | ioCore t => exact ⟨rfl, rfl, rfl, rfl⟩
  | dynamic hd inner ih => simpa [Core.write] using ih

theorem check_some_spec (z : ZapLogger) (s : LogState) (lvl : Level)
    (msg : String) (ts : Int) (caller st : String) (ce : CheckedEntry)
    (h : z.check s lvl msg ts caller st = some ce) :
    ce.core = z.core ∧ ce.fields = z.fields ∧
      ce.willWrite = z.core.enabled s lvl ∧
      ce.entry = ⟨lvl, ts, z.name, caller, msg,
        if levelLE .ErrorLevel lvl then some st else none⟩ := by
  cases henb : z.core.enabled s lvl with
  | true =>
      unfold ZapLogger.check at h
      cases hdev : z.development <;>
        simp only [henb, hdev] at h <;>
        cases lvl <;>
        simp_all [ceShould] <;>
        (try subst h) <;>
        (try simp_all)
  | false =>
      unfold ZapLogger.check at h
      cases hdev : z.development <;>
        simp only [henb, hdev] at h <;>
        cases lvl <;>
        simp_all [ceShould] <;>
        (try subst h) <;>
        (try simp_all)

theorem check_none_spec (z : ZapLogger) (s : LogState) (lvl : Level)
    (msg : String) (ts : Int) (caller st : String)
    (h : z.check s lvl msg ts caller st = none) :
    z.core.enabled s lvl = false := by
  cases henb : z.core.enabled s lvl with
  | true =>
      unfold ZapLogger.check at h
      cases hdev : z.development <;>
        simp only [henb, hdev] at h <;>
        cases lvl <;>
        simp_all [ceShould]
  | false => rfl

theorem writeCE_output (ce : CheckedEntry) (fs : List LogField) (s : LogState) :
    (ce.writeCE fs s).output =
      (if ce.willWrite then
        ce.core.write
          (encodeLine ce.entry.ts ce.entry.level ce.entry.name ce.entry.caller
            ce.entry.msg (ce.fields ++ fs) ce.entry.stack) s
       else s).output := by
  unfold CheckedEntry.writeCE
  cases ce.hook <;> rfl

/-- Workhorse: the sink content after one leveled emit. -/
theorem logAt_output (z : ZapLogger) (s : LogState) (lvl : Level) (msg : String)
    (ts : Int) (caller st : String) (fs : List LogField) :
    (z.logAt s lvl msg ts caller st fs).output =
      if z.core.enabled s lvl = true then
        (z.core.write
          (encodeLine ts lvl z.name caller msg (z.fields ++ fs)
            (if levelLE .ErrorLevel lvl then some st else none)) s).output
      else s.output := by
  unfold ZapLogger.logAt
  cases hch : z.check s lvl msg ts caller st with
  | none => simp [check_none_spec z s lvl msg ts caller st hch]
  | some ce =>
      obtain ⟨hcore, hfields, hww, hent⟩ :=
        check_some_spec z s lvl msg ts caller st ce hch
      rw [writeCE_output, hww, hcore, hfields, hent]
      cases henb : z.core.enabled s lvl <;> simp

theorem with_foldl_toZap (fss : List (List LogField)) (l : Logger) :
    (fss.foldl Logger.With l).toZap =
      { l.toZap with fields := l.toZap.fields ++ fss.flatten } := by
  induction fss generalizing l with
  | nil => simp
  | cons fs fss ih =>
      simp only [List.foldl_cons, List.flatten_cons, ih]
      simp [Logger.With, ZapLogger.withFields, List.append_assoc]

theorem strFoldlAppend (l : List String) (a b : String) :
    List.foldl (fun r u => r ++ u) (a ++ b) l =
      a ++ List.foldl (fun r u => r ++ u) b l := by
  induction l generalizing b with
  | nil => rfl
  | cons x xs ih => simp only [List.foldl_cons, String.append_assoc, ih]

theorem strJoin_cons (x : String) (xs : List String) :
    String.join (x :: xs) = x ++ String.join xs := by
  show List.foldl (fun r u => r ++ u) ("" ++ x) xs =
    x ++ List.foldl (fun r u => r ++ u) "" xs
  have h := strFoldlAppend xs x ""
  simpa using h

theorem named_foldl_name (segs : List String) (l : Logger)
    (hsegs : ∀ t ∈ segs, t ≠ "") (hn : l.toZap.name ≠ "") :
    (segs.foldl Logger.Named l).toZap.name =
      l.toZap.name ++ String.join (segs.map (fun u => "." ++ u)) := by
  induction segs generalizing l with
  | nil => simp [String.join]
  | cons t rest ih =>
      have ht : t ≠ "" := hsegs t (by simp)
      have hstep : (Logger.Named l t).toZap.name = l.toZap.name ++ "." ++ t := by
        simp [Logger.Named, ZapLogger.named, ht, hn]
      have hne : (Logger.Named l t).toZap.name ≠ "" := by
        rw [hstep]
        intro hcontr
        have : ("" : String).data = [] := rfl
        apply ht
        have hdata := congrArg String.data hcontr
        simp [String.data_append] at hdata
      rw [List.foldl_cons, ih (Logger.Named l t) (fun u hu => hsegs u (by simp [hu])) hne, hstep]
      simp [strJoin_cons, String.append_assoc]

theorem getLogger_of_none (ctx : GoContext)
    (h : ctx.value contextKeyLogger = none) :
    Zapfmt.getLogger ctx = DefaultLogger := by
  simp [Zapfmt.getLogger, h]

theorem enabled_alloc_frame (c : Core) (s : LogState) (v : Level) (q : Level)
    (hb : c.boundedBy s.nextHolder = true) :
    c.enabled (s.alloc v).2 q = c.enabled s q := by
  cases c with
  | nop => rfl
  | ioCore t => rfl
  | dynamic h inner =>
      simp only [Core.boundedBy, Bool.and_eq_true, decide_eq_true_eq] at hb
      have : h ≠ s.nextHolder := Nat.ne_of_lt hb.1
      simp [Core.enabled, LogState.alloc, this]

/-! ## Claim theorems -/

/-- C1 (Level freezing independence): a facade `L` whose emit decision tracks
a shared mutable level holder `H` derives, via `WithLevel lvl`, a child bound
to a newly created independent holder initialized to `lvl`; after any later
value `v` is written to `H`, the child's effective emit threshold is still
`lvl`, while a sibling derived via `Named` keeps referencing `H` and
immediately reflects the write of `v`. -/
theorem level_freezing_independence (L : Logger) (H : Nat) (inner : Core)
    (s : LogState) (lvl v : Level) (seg : String) (q : Level)
    (hc : L.toZap.core = Core.dynamic H inner) (hH : H < s.nextHolder) :
    (L.WithLevel lvl s).1.toZap.core = Core.dynamic s.nextHolder L.toZap.core
    ∧ (L.WithLevel lvl s).2.holderLevel s.nextHolder = lvl
    ∧ s.nextHolder ≠ H
    ∧ (L.WithLevel lvl s).1.toZap.core.enabled
        (((L.WithLevel lvl s).2).setLevel H v) q = levelLE lvl q
    ∧ (L.Named seg).toZap.core.enabled
        (((L.WithLevel lvl s).2).setLevel H v) q = levelLE v q := by
  have hne : s.nextHolder ≠ H := by omega
  refine ⟨rfl, by simp [Logger.WithLevel, LogState.alloc], hne, ?_, ?_⟩
  · simp [Logger.WithLevel, LogState.alloc, ZapLogger.wrapCoreWithLevel,
      Core.enabled, LogState.setLevel, hne]
  · have hbc : (L.Named seg).toZap.core = Core.dynamic H inner := by
      show (L.toZap.named seg).core = Core.dynamic H inner
      rw [named_core, hc]
    rw [hbc]
    simp [Core.enabled, LogState.setLevel, Logger.WithLevel, LogState.alloc]

/-- Witness for C1 at a concrete instance: parent tracking holder 0 (shared,
at Error); child frozen at Info; holder 0 then set to Debug — the child
still accepts exactly Info-and-above (Debug rejected, Info accepted),
the sibling accepts Debug. -/
theorem level_freezing_independence_witness :
    ((NewProductionLogger 0).toZap.core =
        Core.dynamic 0 (Core.ioCore Level.DebugLevel)
      ∧ 0 < (1 : Nat))
    ∧ ((NewProductionLogger 0).WithLevel Level.InfoLevel
          ⟨1, fun _ => Level.ErrorLevel, [], false, false⟩).1.toZap.core.enabled
        ((((NewProductionLogger 0).WithLevel Level.InfoLevel
          ⟨1, fun _ => Level.ErrorLevel, [], false, false⟩).2).setLevel 0
            Level.DebugLevel) Level.DebugLevel = levelLE Level.InfoLevel Level.DebugLevel
    ∧ ((NewProductionLogger 0).Named "b").toZap.core.enabled
        ((((NewProductionLogger 0).WithLevel Level.InfoLevel
          ⟨1, fun _ => Level.ErrorLevel, [], false, false⟩).2).setLevel 0
            Level.DebugLevel) Level.DebugLevel = levelLE Level.DebugLevel Level.DebugLevel := by
  refine ⟨⟨rfl, by decide⟩, ?_, ?_⟩
  · exact (level_freezing_independence (NewProductionLogger 0) 0
      (Core.ioCore Level.DebugLevel) ⟨1, fun _ => Level.ErrorLevel, [], false, false⟩
      Level.InfoLevel Level.DebugLevel "b" Level.DebugLevel rfl (by decide)).2.2.2.1
  · exact (level_freezing_independence (NewProductionLogger 0) 0
      (Core.ioCore Level.DebugLevel) ⟨1, fun _ => Level.ErrorLevel, [], false, false⟩
      Level.InfoLevel Level.DebugLevel "b" Level.DebugLevel rfl (by decide)).2.2.2.2

/-- C2 (code bug evidence): `Context` computes
`l.Logger.WithOptions(zap.AddCallerSkip(1))` but discards the result — zap's
`WithOptions` clones and never mutates its receiver — so the facade stored
in the context keeps its construction-time caller-skip depth of 1 instead of
the adjusted depth 2 the spec describes. -/
theorem context_callerSkip_unchanged :
    Zapfmt.getLogger (Zapfmt.Context GoContext.background (NewProductionLogger 0))
      = NewProductionLogger 0
    ∧ (Zapfmt.getLogger
        (Zapfmt.Context GoContext.background (NewProductionLogger 0))).toZap.callerSkip = 1
    ∧ ((NewProductionLogger 0).toZap.addCallerSkip 1).callerSkip = 2 := by
  refine ⟨?_, rfl, rfl⟩
  rfl

/-- C3 (Fallback resolution is total): the facade lookup performed by every
free function returns the process-wide `DefaultLogger` whenever the context
never had a facade attached under the package's private key; it is a total
function and never yields an empty value. -/
theorem getLogger_fallback (ctx : GoContext)
    (h : ctx.value contextKeyLogger = none) :
    Zapfmt.getLogger ctx = DefaultLogger := getLogger_of_none ctx h

/-- Witness for C3: the background context has no facade attached, and the
lookup yields `DefaultLogger`. -/
theorem getLogger_fallback_witness :
    GoContext.background.value contextKeyLogger = none
    ∧ Zapfmt.getLogger GoContext.background = DefaultLogger :=
  ⟨rfl, getLogger_fallback GoContext.background rfl⟩

/-- C4 counterexample: at Panic severity the claimed equivalence fails — with
the no-op `DefaultLogger` (a facade whose threshold rejects every level),
the `Check` free function still returns a usable deferred-write handle,
because zap forces a handle at Panic/Fatal severity to guarantee the
unconditional panic/exit side effect. -/
theorem check_gating_counterexample :
    (Zapfmt.Check GoContext.background
        ⟨0, fun _ => Level.InfoLevel, [], false, false⟩
        Level.PanicLevel "m" 0 "c" "st").isSome = true
    ∧ (Zapfmt.getLogger GoContext.background).toZap.core.enabled
        ⟨0, fun _ => Level.InfoLevel, [], false, false⟩ Level.PanicLevel = false :=
  ⟨rfl, rfl⟩

/-- C4 (amended): for every facade not in development mode and every level
strictly below Panic severity, `check` returns a usable deferred-write
handle iff the level meets the facade's current effective threshold; when
the level is below the threshold it returns no handle and emitting is a
no-op — no side effect and zero output lines. -/
theorem check_gating (l : Logger) (s : LogState) (lvl : Level) (msg : String)
    (ts : Int) (caller st : String) (fs : List LogField)
    (hdev : l.toZap.development = false)
    (hlt : levelLT lvl Level.PanicLevel = true) :
    ((l.toZap.check s lvl msg ts caller st).isSome = l.toZap.core.enabled s lvl)
    ∧ (l.toZap.core.enabled s lvl = false →
        l.toZap.check s lvl msg ts caller st = none
        ∧ l.toZap.logAt s lvl msg ts caller st fs = s) := by
  have hch : l.toZap.check s lvl msg ts caller st =
      (if l.toZap.core.enabled s lvl then
        some ⟨⟨lvl, ts, l.toZap.name, caller, msg,
          if levelLE .ErrorLevel lvl then some st else none⟩,
          l.toZap.fields, l.toZap.core, true, .noop⟩
       else none) := by
    unfold ZapLogger.check
    cases lvl <;> simp_all [levelLT, Level.toInt]
  refine ⟨?_, fun hdis => ?_⟩
  · rw [hch]
    cases henb : l.toZap.core.enabled s lvl <;> simp [henb]
  · have hnone : l.toZap.check s lvl msg ts caller st = none := by
      rw [hch, hdis]
      rfl
    exact ⟨hnone, by unfold ZapLogger.logAt; rw [hnone]⟩

/-- Witness for C4 (amended) at a concrete instance: production facade over
a holder at Info; a Debug-level check yields no handle and a Debug emit
leaves the state untouched, while an Info-level check yields a handle. -/
theorem check_gating_witness :
    ((NewProductionLogger 0).toZap.development = false
      ∧ levelLT Level.DebugLevel Level.PanicLevel = true)
    ∧ ((NewProductionLogger 0).toZap.check
        ⟨1, fun _ => Level.InfoLevel, [], false, false⟩
        Level.DebugLevel "m" 0 "c" "st").isSome =
      (NewProductionLogger 0).toZap.core.enabled
        ⟨1, fun _ => Level.InfoLevel, [], false, false⟩ Level.DebugLevel
    ∧ ((NewProductionLogger 0).toZap.check
        ⟨1, fun _ => Level.InfoLevel, [], false, false⟩
        Level.DebugLevel "m" 0 "c" "st" = none
      ∧ (NewProductionLogger 0).toZap.logAt
          ⟨1, fun _ => Level.InfoLevel, [], false, false⟩
          Level.DebugLevel "m" 0 "c" "st" [] =
        ⟨1, fun _ => Level.InfoLevel, [], false, false⟩) := by
  refine ⟨⟨rfl, by decide⟩, ?_, ?_⟩
  · exact (check_gating (NewProductionLogger 0)
      ⟨1, fun _ => Level.InfoLevel, [], false, false⟩ Level.DebugLevel
      "m" 0 "c" "st" [] rfl (by decide)).1
  · exact (check_gating (NewProductionLogger 0)
      ⟨1, fun _ => Level.InfoLevel, [], false, false⟩ Level.DebugLevel
      "m" 0 "c" "st" [] rfl (by decide)).2 rfl

/-- C8 (Fatal termination): for every facade and every current effective
threshold, a Fatal-level emit terminates the process after attempting to
write the record — the exit side effect is unconditional, even when the
threshold suppresses the record; the record is written exactly when the
threshold accepts Fatal, and the panic flag is untouched. -/
theorem fatal_always_exits (l : Logger) (s : LogState) (msg : String)
    (ts : Int) (caller st : String) (fs : List LogField) :
    (l.toZap.logAt s .FatalLevel msg ts caller st fs).exited = true
    ∧ (l.toZap.logAt s .FatalLevel msg ts caller st fs).output =
        (if l.toZap.core.enabled s .FatalLevel = true then
          l.toZap.core.write
            (encodeLine ts .FatalLevel l.toZap.name caller msg
              (l.toZap.fields ++ fs) (some st)) s
         else s).output
    ∧ (l.toZap.logAt s .FatalLevel msg ts caller st fs).panicked = s.panicked := by
  have hstack : (if levelLE Level.ErrorLevel Level.FatalLevel then some st
      else none) = some st := rfl
  cases henb : l.toZap.core.enabled s .FatalLevel with
  | true =>
      unfold ZapLogger.logAt ZapLogger.check
      simp only [henb, hstack, ite_true]
      unfold CheckedEntry.writeCE ceShould
      simp [henb, (write_output_frame l.toZap.core
        (encodeLine ts .FatalLevel l.toZap.name caller msg
          (l.toZap.fields ++ fs) (some st)) s).1]
  | false =>
      unfold ZapLogger.logAt ZapLogger.check
      simp only [henb, hstack]
      unfold CheckedEntry.writeCE ceShould
      simp [henb]

/-- C5 (Field ordering): for every chain of ancestor `With` derivations and
every emit whose level passes the threshold of a core that reaches the sink,
the emitted line carries the structured fields in accumulation order — the
facade's starting fields, then the fields of each ancestor derivation in the
order the derivations added them, then the call-site fields in call-site
order. -/
theorem field_order (l : Logger) (fss : List (List LogField))
    (callFs : List LogField) (s : LogState) (lvl : Level) (msg : String)
    (ts : Int) (caller st : String)
    (hen : l.toZap.core.enabled s lvl = true)
    (hw : l.toZap.core.writesThrough = true) :
    ((fss.foldl Logger.With l).toZap.logAt s lvl msg ts caller st callFs).output
      = s.output ++
        [encodeLine ts lvl l.toZap.name caller msg
          (l.toZap.fields ++ fss.flatten ++ callFs)
          (if levelLE .ErrorLevel lvl then some st else none)] := by
  rw [logAt_output, with_foldl_toZap]
  simp only [hen, ite_true]
  rw [write_of_writesThrough _ _ _ hw]

/-- Witness for C5: two ancestor derivations and one call-site field, at
Info over a holder at Debug: the line shows `a`, then `b`, then `extra`. -/
theorem field_order_witness :
    ((NewProductionLogger 0).toZap.core.enabled
        ⟨1, fun _ => Level.DebugLevel, [], false, false⟩ Level.InfoLevel = true
      ∧ (NewProductionLogger 0).toZap.core.writesThrough = true)
    ∧ (([[⟨"a", .str "1"⟩], [⟨"b", .str "2"⟩]].foldl Logger.With
          (NewProductionLogger 0)).toZap.logAt
        ⟨1, fun _ => Level.DebugLevel, [], false, false⟩
        Level.InfoLevel "m" 0 "c" "st" [⟨"extra", .str "x"⟩]).output
      = [] ++
        [encodeLine 0 Level.InfoLevel (NewProductionLogger 0).toZap.name "c" "m"
          ((NewProductionLogger 0).toZap.fields ++
            [[⟨"a", .str "1"⟩], [⟨"b", .str "2"⟩]].flatten ++ [⟨"extra", .str "x"⟩])
          (if levelLE .ErrorLevel Level.InfoLevel then some "st" else none)] := by
  refine ⟨⟨by decide, rfl⟩, ?_⟩
  exact field_order (NewProductionLogger 0) [[⟨"a", .str "1"⟩], [⟨"b", .str "2"⟩]]
    [⟨"extra", .str "x"⟩] ⟨1, fun _ => Level.DebugLevel, [], false, false⟩
    Level.InfoLevel "m" 0 "c" "st" (by decide) rfl

/-- C6 (Logger naming): starting from an unnamed facade, a chain of `Named`
derivations with non-empty segments yields the segments joined with `"."`
in derivation order (the unnamed start contributes no segment and no
separator); and the encoded line carries a `[logger:<dot-path>]` segment
exactly when the name is non-empty — with an empty name the segment is
omitted entirely, not rendered as an empty bracket. -/
theorem logger_naming (l : Logger) (segs : List String) (nm : String)
    (ts : Int) (lvl : Level) (caller msg : String) (fields : List LogField)
    (stack : Option String)
    (hname : l.toZap.name = "") (hsegs : ∀ t ∈ segs, t ≠ "") (hnm : nm ≠ "") :
    (segs.foldl Logger.Named l).toZap.name = dotJoin segs
    ∧ encodeLine ts lvl "" caller msg fields stack =
        "[ts:" ++ formatRFC3339Micro ts ++ "][level:" ++ lvl.lowercaseName ++
          "]" ++ "[caller:" ++ caller ++ "][msg:" ++ msg ++ "]" ++
          String.join (fields.map renderField) ++ renderStack stack
    ∧ encodeLine ts lvl nm caller msg fields stack =
        "[ts:" ++ formatRFC3339Micro ts ++ "][level:" ++ lvl.lowercaseName ++
          "]" ++ ("[logger:" ++ nm ++ "]") ++ "[caller:" ++ caller ++
          "][msg:" ++ msg ++ "]" ++
          String.join (fields.map renderField) ++ renderStack stack := by
  refine ⟨?_, ?_, ?_⟩
  · cases segs with
    | nil => simpa [dotJoin] using hname
    | cons t rest =>
        have ht : t ≠ "" := hsegs t (by simp)
        have hstep : (Logger.Named l t).toZap.name = t := by
          simp [Logger.Named, ZapLogger.named, ht, hname]
        rw [List.foldl_cons, named_foldl_name rest (Logger.Named l t)
          (fun u hu => hsegs u (by simp [hu])) (by rw [hstep]; exact ht), hstep]
        rfl
  · simp [encodeLine, loggerSegment]
  · simp [encodeLine, loggerSegment, hnm]

/-- Witness for C6: the chain `first_level.second_level.third_level` from
the test suite, with a concrete encoded line with and without a name. -/
theorem logger_naming_witness :
    ((NewProductionLogger 0).toZap.name = ""
      ∧ (∀ t ∈ ["first_level", "second_level", "third_level"], t ≠ "")
      ∧ ("first_level" : String) ≠ "")
    ∧ (["first_level", "second_level", "third_level"].foldl Logger.Named
        (NewProductionLogger 0)).toZap.name =
        dotJoin ["first_level", "second_level", "third_level"]
    ∧ encodeLine 0 Level.WarnLevel "" "c" "m" [] none =
        "[ts:" ++ formatRFC3339Micro 0 ++ "][level:" ++
          Level.WarnLevel.lowercaseName ++ "]" ++ "[caller:" ++ "c" ++
          "][msg:" ++ "m" ++ "]" ++
          String.join (([] : List LogField).map renderField) ++ renderStack none
    ∧ encodeLine 0 Level.WarnLevel "first_level" "c" "m" [] none =
        "[ts:" ++ formatRFC3339Micro 0 ++ "][level:" ++
          Level.WarnLevel.lowercaseName ++ "]" ++
          ("[logger:" ++ "first_level" ++ "]") ++ "[caller:" ++ "c" ++
          "][msg:" ++ "m" ++ "]" ++
          String.join (([] : List LogField).map renderField) ++
          renderStack none := by
  refine ⟨⟨rfl, by decide, by decide⟩, ?_, ?_, ?_⟩
  · exact (logger_naming (NewProductionLogger 0)
      ["first_level", "second_level", "third_level"] "first_level" 0
      Level.WarnLevel "c" "m" [] none rfl (by decide) (by decide)).1
  · exact (logger_naming (NewProductionLogger 0)
      ["first_level", "second_level", "third_level"] "first_level" 0
      Level.WarnLevel "c" "m" [] none rfl (by decide) (by decide)).2.1
  · exact (logger_naming (NewProductionLogger 0)
      ["first_level", "second_level", "third_level"] "first_level" 0
      Level.WarnLevel "c" "m" [] none rfl (by decide) (by decide)).2.2

/-- C7 (Field value rendering): a duration field of 374 milliseconds renders
as `0.374`; a timestamp field at Unix epoch zero renders as
`1970-01-01T00:00:00.000000Z`; and every rendered timestamp — record or
field — ends in a UTC `Z` suffix preceded by a fractional-seconds part
zero-padded to exactly six digits. -/
theorem duration_time_rendering :
    renderField ⟨"duration_key", .dur (374 * 1000000)⟩ = "[duration_key:0.374]"
    ∧ renderField ⟨"time_key", .time 0⟩ =
        "[time_key:1970-01-01T00:00:00.000000Z]"
    ∧ ∀ ts : Int, ∃ pre : String,
        formatRFC3339Micro ts =
          pre ++ "." ++ padNat 6 ((Int.fmod ts 1000000000).toNat / 1000) ++ "Z"
        ∧ (padNat 6 ((Int.fmod ts 1000000000).toNat / 1000)).length = 6 := by
  refine ⟨by decide, by decide, fun ts => ⟨_, rfl, padNat_length 6 _⟩⟩

/-- C9 (Derivation purity / frame): every context-level derivation layers a
new value on the unchanged input context — the derived context's parent is
the original, whose own lookup result is untouched; the child facade is a
new value extending the parent's fields and name without mutating it; and
the only state effect of `WithLevel` is allocating a fresh holder, so the
original facade's emit decisions are identical before and after. -/
theorem derivation_purity (ctx : GoContext) (s : LogState) (lvl q : Level)
    (fs : List LogField) (seg : String)
    (hb : (Zapfmt.getLogger ctx).toZap.core.boundedBy s.nextHolder = true) :
    Zapfmt.Named ctx seg =
        GoContext.withValue ctx contextKeyLogger ((Zapfmt.getLogger ctx).Named seg)
    ∧ Zapfmt.With ctx fs =
        GoContext.withValue ctx contextKeyLogger ((Zapfmt.getLogger ctx).With fs)
    ∧ (Zapfmt.WithLevel ctx lvl s).1 =
        GoContext.withValue ctx contextKeyLogger
          ((Zapfmt.getLogger ctx).WithLevel lvl s).1
    ∧ ((Zapfmt.getLogger ctx).Named seg).toZap.core =
        (Zapfmt.getLogger ctx).toZap.core
    ∧ ((Zapfmt.getLogger ctx).With fs).toZap.name =
        (Zapfmt.getLogger ctx).toZap.name
    ∧ ((Zapfmt.getLogger ctx).With fs).toZap.fields =
        (Zapfmt.getLogger ctx).toZap.fields ++ fs
    ∧ (Zapfmt.getLogger ctx).toZap.core.enabled
        (Zapfmt.WithLevel ctx lvl s).2 q =
        (Zapfmt.getLogger ctx).toZap.core.enabled s q := by
  refine ⟨rfl, rfl, rfl, named_core _ seg, rfl, rfl, ?_⟩
  show (Zapfmt.getLogger ctx).toZap.core.enabled (s.alloc lvl).2 q = _
  exact enabled_alloc_frame _ s lvl q hb

/-- Witness for C9 at a concrete instance: a production facade attached to
the background context; after `WithLevel` allocates the child's frozen
holder, the parent's Debug decision is unchanged. -/
theorem derivation_purity_witness :
    (Zapfmt.getLogger (Zapfmt.Context GoContext.background
        (NewProductionLogger 0))).toZap.core.boundedBy 1 = true
    ∧ (Zapfmt.getLogger (Zapfmt.Context GoContext.background
        (NewProductionLogger 0))).toZap.core.enabled
        (Zapfmt.WithLevel (Zapfmt.Context GoContext.background
          (NewProductionLogger 0)) Level.DebugLevel
          ⟨1, fun _ => Level.ErrorLevel, [], false, false⟩).2 Level.DebugLevel =
      (Zapfmt.getLogger (Zapfmt.Context GoContext.background
        (NewProductionLogger 0))).toZap.core.enabled
        ⟨1, fun _ => Level.ErrorLevel, [], false, false⟩ Level.DebugLevel := by
  refine ⟨rfl, ?_⟩
  exact (derivation_purity (Zapfmt.Context GoContext.background
    (NewProductionLogger 0)) ⟨1, fun _ => Level.ErrorLevel, [], false, false⟩
    Level.DebugLevel Level.DebugLevel [] "b" rfl).2.2.2.2.2.2

/-- C10 (empty-context derivation): deriving on a context that never had a
facade attached derives from the no-op `DefaultLogger`: `WithLevel` hands
back a facade over the default's discarded sink (its dynamic wrapper may
accept the level, but its write delegates to the no-op core), so every
subsequent emit through the derived context — at every level — appends zero
output lines, for all three derivation kinds; the operations are total and
the derived facade is exactly the one derived from `DefaultLogger`. -/
theorem empty_context_derivation (ctx : GoContext) (s : LogState)
    (lvl q : Level) (msg : String) (ts : Int) (caller st : String)
    (fs fs2 : List LogField) (seg : String)
    (hnone : ctx.value contextKeyLogger = none) :
    Zapfmt.getLogger (Zapfmt.WithLevel ctx lvl s).1 =
        (DefaultLogger.WithLevel lvl s).1
    ∧ (Zapfmt.logCtx (Zapfmt.WithLevel ctx lvl s).1
        (Zapfmt.WithLevel ctx lvl s).2 q msg ts caller st fs).output =
        (Zapfmt.WithLevel ctx lvl s).2.output
    ∧ (Zapfmt.logCtx (Zapfmt.Named ctx seg) s q msg ts caller st fs).output =
        s.output
    ∧ (Zapfmt.logCtx (Zapfmt.With ctx fs2) s q msg ts caller st fs).output =
        s.output := by
  have hdef : Zapfmt.getLogger ctx = DefaultLogger := getLogger_of_none ctx hnone
  have hlook : ∀ l : Logger,
      Zapfmt.getLogger (GoContext.withValue ctx contextKeyLogger l) = l := by
    intro l
    simp [Zapfmt.getLogger, GoContext.value]
  refine ⟨?_, ?_, ?_, ?_⟩
  · show Zapfmt.getLogger (GoContext.withValue ctx contextKeyLogger
      ((Zapfmt.getLogger ctx).WithLevel lvl s).1) = _
    rw [hlook, hdef]
  · show ((Zapfmt.getLogger (GoContext.withValue ctx contextKeyLogger
      ((Zapfmt.getLogger ctx).WithLevel lvl s).1)).toZap.logAt _ q msg ts caller st fs).output = _
    rw [hlook, hdef]
    rw [logAt_output]
    have hnw : (DefaultLogger.WithLevel lvl s).1.toZap.core.writesThrough = false := rfl
    rw [write_of_not_writesThrough _ _ _ hnw]
    simp
  · show ((Zapfmt.getLogger (GoContext.withValue ctx contextKeyLogger
      ((Zapfmt.getLogger ctx).Named seg))).toZap.logAt s q msg ts caller st fs).output = _
    rw [hlook, hdef]
    rw [logAt_output]
    have hnw : (DefaultLogger.Named seg).toZap.core.writesThrough = false := by
      show ((DefaultLogger.toZap.named seg).core).writesThrough = false
      rw [named_core]
      rfl
    rw [write_of_not_writesThrough _ _ _ hnw]
    simp
  · show ((Zapfmt.getLogger (GoContext.withValue ctx contextKeyLogger
      ((Zapfmt.getLogger ctx).With fs2))).toZap.logAt s q msg ts caller st fs).output = _
    rw [hlook, hdef]
    rw [logAt_output]
    have hnw : (DefaultLogger.With fs2).toZap.core.writesThrough = false := rfl
    rw [write_of_not_writesThrough _ _ _ hnw]
    simp

/-- Witness for C10: raising the background context to Debug and then
emitting at Debug — the holder accepts the level, yet the no-op sink is
reached and zero lines appear; the same for `Named` and `With`. -/
theorem empty_context_derivation_witness :
    GoContext.background.value contextKeyLogger = none
    ∧ (Zapfmt.logCtx (Zapfmt.WithLevel GoContext.background Level.DebugLevel
        ⟨0, fun _ => Level.InfoLevel, [], false, false⟩).1
        (Zapfmt.WithLevel GoContext.background Level.DebugLevel
          ⟨0, fun _ => Level.InfoLevel, [], false, false⟩).2
        Level.DebugLevel "m" 0 "c" "st" []).output =
      (Zapfmt.WithLevel GoContext.background Level.DebugLevel
        ⟨0, fun _ => Level.InfoLevel, [], false, false⟩).2.output
    ∧ (Zapfmt.logCtx (Zapfmt.Named GoContext.background "n")
        ⟨0, fun _ => Level.InfoLevel, [], false, false⟩
        Level.DebugLevel "m" 0 "c" "st" []).output = [] := by
  refine ⟨rfl, ?_, ?_⟩
  · exact (empty_context_derivation GoContext.background
      ⟨0, fun _ => Level.InfoLevel, [], false, false⟩ Level.DebugLevel
      Level.DebugLevel "m" 0 "c" "st" [] [] "n" rfl).2.1
  · exact (empty_context_derivation GoContext.background
      ⟨0, fun _ => Level.InfoLevel, [], false, false⟩ Level.DebugLevel
      Level.DebugLevel "m" 0 "c" "st" [] [] "n" rfl).2.2.1
